import Mathlib

/-!
Verification of the StarType value-reference grammar
(src/parse/StarTypeValueRefParser.cpp) against its specification.

The per-type grammar composes an enum-constant rule, a bound-variable rule,
a statistic rule and (constructed but unused) function/operator rules, and
publishes the composed rule through a per-type registry
(parse::value_ref_parser<StarType>, a function-local static singleton).

Rules are embedded as pure functions from an immutable token list and a
cursor position to a parse result; alternation tries branches in declared
order and a failed branch restores the start position (the Spirit.Qi
backtracking semantics assumed by the source).
-/

namespace StarTypeVR

/-- A classified lexical unit produced by the external lexer; the grammar
only inspects its spelling. -/
structure Token where
  text : String
deriving DecidableEq, Repr

/-- Build a token from its spelling. -/
def tk (s : String) : Token := ⟨s⟩

/-- The StarType enumeration (one enumerator per star type understood by
the game content scripts). -/
inductive StarType where
  | blue
  | white
  | yellow
  | orange
  | red
  | neutron
  | blackHole
  | noStar
deriving DecidableEq, Repr

/-- Result of running a rule at a cursor: success carries the parsed value
and the new cursor; failure carries the (restored) cursor, which the
backtracking combinators always reset to the position the rule started at. -/
inductive PResult (α : Type) where
  | ok (value : α) (next : Nat)
  | fail (pos : Nat)
deriving DecidableEq, Repr

/-- Whether a parse result is a success. -/
def PResult.isOk {α : Type} : PResult α → Bool
  | .ok _ _ => true
  | .fail _ => false

/-- A grammar rule: a pure function of the token list and start cursor. -/
abbrev Rule (α : Type) := List Token → Nat → PResult α

/-- Match one token with exactly the given spelling, producing the spelling. -/
def kwMatch (s : String) : Rule String := fun toks i =>
  match toks.get? i with
  | some t => if t.text = s then .ok t.text (i + 1) else .fail i
  | none => .fail i

/-- Ordered alternation: try the first branch; if it fails, retry the second
branch from the original start position (first successful match wins). -/
def alt {α : Type} (p q : Rule α) : Rule α := fun toks i =>
  match p toks i with
  | .ok v j => .ok v j
  | .fail _ => q toks i

/-- Apply a semantic action to the attribute of a successful match. -/
def pmap {α β : Type} (f : α → β) (p : Rule α) : Rule β := fun toks i =>
  match p toks i with
  | .ok v j => .ok (f v) j
  | .fail j => .fail j

/-- variable_name: tok.StarType_ | tok.NextOlderStarType_ |
tok.NextYoungerStarType_ (source lines 16-20); yields the matched spelling. -/
def variable_name : Rule String :=
  alt (kwMatch "StarType") (alt (kwMatch "NextOlderStarType") (kwMatch "NextYoungerStarType"))

/-- Modelled from the spec: the table of known literal spellings of the
StarType enumerators used by parse::enum_parser<StarType>() (EnumParser.h,
not under src/); the spec names Blue explicitly and the remaining
enumerator spellings follow the game content conventions. -/
def starTypeSpellings : List (String × StarType) :=
  [("Blue", .blue), ("White", .white), ("Yellow", .yellow), ("Orange", .orange),
   ("Red", .red), ("Neutron", .neutron), ("BlackHole", .blackHole), ("NoStar", .noStar)]

/-- Modelled from the spec: parse::enum_parser<StarType>() (EnumParser.h,
not under src/): attempts to match one token against the known literal
spellings of StarType; on match it consumes the token and yields the
matched enumerator, on no match it fails without consuming input. -/
def enumRuleStarType : Rule StarType := fun toks i =>
  match toks.get? i with
  | some t =>
    match starTypeSpellings.find? (fun p => p.1 = t.text) with
    | some p => .ok p.2 (i + 1)
    | none => .fail i
  | none => .fail i

/-- Expression-tree node for a StarType value reference (ValueRef variants:
Constant, BoundVariable with qualifiers, Statistic over a sub-expression,
and the function/operator form produced by the nonnumeric expression
rules). -/
inductive ValueRef where
  | constant (v : StarType)
  | boundVariable (name : String) (qualifiers : List String)
  | statistic (kind : String) (sub : ValueRef)
  | operation (op : String) (operands : List ValueRef)

/-- constant rule (source lines 22-24): the enum sub-rule with the semantic
action new_ ValueRef::Constant<StarType>(_1). -/
def constant : Rule ValueRef := pmap ValueRef.constant enumRuleStarType

/-- Modelled from the spec: initialize_bound_variable_parser<StarType>
(ValueRefParserImpl.h, not under src/): matches one of the variable-name
keywords supplied by the per-type variable_name rule; the bare keyword
yields a BoundVariable node carrying the matched name and no qualifiers. -/
def bound_variable : Rule ValueRef :=
  pmap (fun n => ValueRef.boundVariable n []) variable_name

/-- statistic_sub_value_ref = constant | bound_variable
(source lines 28-31). -/
def statistic_sub_value_ref : Rule ValueRef := alt constant bound_variable

/-- Modelled from the spec: initialize_nonnumeric_statistic_parser<StarType>
(ValueRefParserImpl.h, not under src/): matches the statistic/aggregate
keyword (Mode, the nonnumeric aggregate) followed by a sub-expression
parsed by the restricted statistic_sub_value_ref rule, producing a
Statistic node holding the aggregation kind and the sub-expression; a
failure after the keyword backtracks to the start. -/
def statistic : Rule ValueRef := fun toks i =>
  match kwMatch "Mode" toks i with
  | .ok k j =>
    match statistic_sub_value_ref toks j with
    | .ok sub j2 => .ok (.statistic k sub) j2
    | .fail _ => .fail i
  | .fail _ => .fail i

/-- primary_expr = constant | bound_variable | statistic
(source lines 37-41; the final assignment, which in Qi supersedes anything
the expression initializer wired into the same rule object). -/
def primary_expr : Rule ValueRef := alt constant (alt bound_variable statistic)

/-- Modelled from the spec: the named-function alternative built by
initialize_nonnumeric_expression_parsers<StarType> (ValueRefParserImpl.h,
not under src/): a function name applied to a parenthesised argument list
of sub-expressions, producing an operation node. -/
def function_expr : Rule ValueRef := fun toks i =>
  match toks.get? i with
  | some t =>
    if t.text = "OneOf" ∨ t.text = "Min" ∨ t.text = "Max" then
      match toks.get? (i + 1) with
      | some lp =>
        if lp.text = "(" then
          match primary_expr toks (i + 2) with
          | .ok a j =>
            match toks.get? j with
            | some rp => if rp.text = ")" then .ok (.operation t.text [a]) (j + 1) else .fail i
            | none => .fail i
          | .fail _ => .fail i
        else .fail i
      | none => .fail i
    else .fail i
  | none => .fail i

/-- Modelled from the spec: the operator alternative built by
initialize_nonnumeric_expression_parsers<StarType> (ValueRefParserImpl.h,
not under src/): an infix operator meaningful for non-numeric types
(equality) applied to sub-expressions, producing an operation node. -/
def operated_expr : Rule ValueRef := fun toks i =>
  match primary_expr toks i with
  | .ok a j =>
    match toks.get? j with
    | some op =>
      if op.text = "=" then
        match primary_expr toks (j + 1) with
        | .ok b k => .ok (.operation "=" [a, b]) k
        | .fail _ => .fail i
      else .fail i
    | none => .fail i
  | .fail _ => .fail i

/-- Modelled from the spec: the expr rule wired by
initialize_nonnumeric_expression_parsers<StarType> (ValueRefParserImpl.h,
not under src/) forwards to the per-type primary_expr rule object, whose
final definition (source lines 37-41) is constant | bound_variable |
statistic: per the spec, only those three alternatives are reachable from
the public entry point even though the function/operator sub-rules are
constructed. -/
def expr : Rule ValueRef := fun toks i => primary_expr toks i

/-- Identifier of one rule member of the star_type_parser_rules structure
(source lines 63-71). -/
inductive RuleId where
  | variable_name
  | constant
  | bound_variable
  | statistic_sub_value_ref
  | statistic
  | function_expr
  | operated_expr
  | expr
  | primary_expr
deriving DecidableEq, Repr

/-- The debug names assigned by the star_type_parser_rules constructor
(source lines 43-47): exactly five rule members receive a .name(...) call;
the other members are never named there. -/
def debugName : RuleId → Option String
  | .variable_name => some "StarType variable name (e.g., StarType)"
  | .constant => some "StarType"
  | .bound_variable => some "StarType variable"
  | .statistic => some "StarType statistic"
  | .primary_expr => some "StarType expression"
  | _ => none

/-- The compiled per-type rules structure star_type_parser_rules
(source lines 7-72): one member per grammar rule. -/
structure StarTypeRules where
  variable_name : Rule String
  constant : Rule ValueRef
  bound_variable : Rule ValueRef
  statistic_sub_value_ref : Rule ValueRef
  statistic : Rule ValueRef
  function_expr : Rule ValueRef
  operated_expr : Rule ValueRef
  expr : Rule ValueRef
  primary_expr : Rule ValueRef

/-- Construction of star_type_parser_rules: the value the constructor
leaves every rule member holding. -/
def mkStarTypeRules : StarTypeRules :=
  ⟨variable_name, constant, bound_variable, statistic_sub_value_ref,
   statistic, function_expr, operated_expr, expr, primary_expr⟩

/-- parse::value_ref_parser<StarType>() (source lines 76-81): the
function-local static singleton, modelled with an explicit registry cell:
an empty cell constructs the rules structure and caches it; a full cell
returns the cached structure unchanged. The function returns the
structure together with the registry cell after the call. -/
def value_ref_parser_StarType : Option StarTypeRules → StarTypeRules × Option StarTypeRules
  | some r => (r, some r)
  | none => (mkStarTypeRules, some mkStarTypeRules)

/-- The rule object the registry lookup hands out: the expr member of the
singleton rules structure (source line 80 returns retval.expr). -/
def starTypeEntryRule : Rule ValueRef := (value_ref_parser_StarType none).1.expr

/-- The shared, read-only state of a constructed grammar: the rule objects
and their diagnostic names. -/
structure SharedRuleState where
  rules : StarTypeRules
  names : RuleId → Option String

/-- The full state visible to one parse call: the shared rule state, the
immutable token stream, and the per-call cursor. -/
structure ParseCallState where
  shared : SharedRuleState
  tokens : List Token
  cursor : Nat

/-- Run the public entry rule on a parse-call state: the outcome is read
from the rule; the only state component that changes is the cursor. -/
def runEntry (s : ParseCallState) : PResult ValueRef × ParseCallState :=
  match s.shared.rules.expr s.tokens s.cursor with
  | .ok v j => (.ok v j, ⟨s.shared, s.tokens, j⟩)
  | .fail j => (.fail j, ⟨s.shared, s.tokens, j⟩)

/-- Whether an expression node contains a function-call/operator node. -/
def hasOperation : ValueRef → Bool
  | .constant _ => false
  | .boundVariable _ _ => false
  | .statistic _ sub => hasOperation sub
  | .operation _ _ => true

/-- Alternation succeeds exactly when one of its branches succeeds. -/
theorem alt_isOk {α : Type} (p q : Rule α) (toks : List Token) (i : Nat) :
    (alt p q toks i).isOk = ((p toks i).isOk || (q toks i).isOk) := by
  unfold alt
  cases p toks i <;> cases q toks i <;> rfl

/-- A succeeding first branch decides the alternation. -/
theorem alt_of_left_ok {α : Type} {p q : Rule α} {toks : List Token} {i : Nat}
    (h : (p toks i).isOk = true) : alt p q toks i = p toks i := by
  unfold alt
  cases hp : p toks i with
  | ok v j => rfl
  | fail j => rw [hp] at h; simp [PResult.isOk] at h

/-- A failing first branch hands the original position to the second branch. -/
theorem alt_of_left_fail {α : Type} {p q : Rule α} {toks : List Token} {i : Nat}
    (h : (p toks i).isOk = false) : alt p q toks i = q toks i := by
  unfold alt
  cases hp : p toks i with
  | ok v j => rw [hp] at h; simp [PResult.isOk] at h
  | fail j => rfl

/-- A successful alternation came from one of its branches. -/
theorem alt_ok_cases {α : Type} {p q : Rule α} {toks : List Token} {i : Nat}
    {v : α} {j : Nat} (h : alt p q toks i = .ok v j) :
    p toks i = .ok v j ∨ q toks i = .ok v j := by
  unfold alt at h
  split at h
  next w k hp => exact Or.inl (hp.trans h)
  next k hp => exact Or.inr h

/-- A failed alternation means the second branch failed the same way. -/
theorem alt_fail {α : Type} {p q : Rule α} {toks : List Token} {i j : Nat}
    (h : alt p q toks i = .fail j) : q toks i = .fail j := by
  unfold alt at h
  cases hp : p toks i with
  | ok w k => rw [hp] at h; exact absurd h (by simp)
  | fail k => rw [hp] at h; exact h

/-- A successful semantic action comes from a successful inner match. -/
theorem pmap_ok_shape {α β : Type} {f : α → β} {p : Rule α} {toks : List Token}
    {i : Nat} {v : β} {j : Nat} (h : pmap f p toks i = .ok v j) :
    ∃ a, p toks i = .ok a j ∧ v = f a := by
  unfold pmap at h
  split at h
  next a k hp =>
    injection h with h1 h2
    exact ⟨a, by rw [hp, h2], h1.symm⟩
  next k hp => exact absurd h (by simp)

/-- A failed semantic action propagates the inner failure unchanged. -/
theorem pmap_fail {α β : Type} {f : α → β} {p : Rule α} {toks : List Token}
    {i j : Nat} (h : pmap f p toks i = .fail j) : p toks i = .fail j := by
  unfold pmap at h
  split at h
  next a k hp => exact absurd h (by simp)
  next k hp => injection h with h1; rw [hp, h1]

/-- A keyword match yields the keyword and consumes exactly one token. -/
theorem kwMatch_ok {s : String} {toks : List Token} {i : Nat} {v : String}
    {j : Nat} (h : kwMatch s toks i = .ok v j) : v = s ∧ j = i + 1 := by
  unfold kwMatch at h
  split at h
  next t hg =>
    split at h
    next ht =>
      injection h with h1 h2
      exact ⟨h1.symm.trans ht, h2.symm⟩
    next ht => exact absurd h (by simp)
  next hg => exact absurd h (by simp)

/-- A failed keyword match restores the start position. -/
theorem kwMatch_fail_pos {s : String} {toks : List Token} {i j : Nat}
    (h : kwMatch s toks i = .fail j) : j = i := by
  unfold kwMatch at h
  split at h
  next t hg =>
    split at h
    next ht => exact absurd h (by simp)
    next ht => injection h with h1; exact h1.symm
  next hg => injection h with h1; exact h1.symm

/-- A failed statistic rule restores the start position. -/
theorem statistic_fail_pos {toks : List Token} {i j : Nat}
    (h : statistic toks i = .fail j) : j = i := by
  unfold statistic at h
  split at h
  next k j1 hk =>
    split at h
    next sub j2 hs => exact absurd h (by simp)
    next j2 hs => injection h with h1; exact h1.symm
  next j1 hk => injection h with h1; exact h1.symm

/-- A successful constant rule produced a Constant node. -/
theorem constant_ok_shape {toks : List Token} {i : Nat} {v : ValueRef} {j : Nat}
    (h : constant toks i = .ok v j) : ∃ c, v = ValueRef.constant c := by
  obtain ⟨a, _, hv⟩ := pmap_ok_shape h
  exact ⟨a, hv⟩

/-- A successful bound-variable rule produced a qualifier-free
BoundVariable node. -/
theorem bound_variable_ok_shape {toks : List Token} {i : Nat} {v : ValueRef}
    {j : Nat} (h : bound_variable toks i = .ok v j) :
    ∃ n, v = ValueRef.boundVariable n [] := by
  obtain ⟨a, _, hv⟩ := pmap_ok_shape h
  exact ⟨a, hv⟩

/-- A successful statistic rule produced a Statistic node whose
sub-expression came from the restricted sub-rule at the position after the
aggregate keyword. -/
theorem statistic_ok_shape {toks : List Token} {i : Nat} {v : ValueRef} {j : Nat}
    (h : statistic toks i = .ok v j) :
    ∃ sub, v = ValueRef.statistic "Mode" sub ∧
      statistic_sub_value_ref toks (i + 1) = .ok sub j := by
  unfold statistic at h
  split at h
  next k j1 hk =>
    split at h
    next sub j2 hs =>
      injection h with h1 h2
      obtain ⟨hks, hj1⟩ := kwMatch_ok hk
      subst hks
      subst hj1
      refine ⟨sub, h1.symm, ?_⟩
      rw [← h2]
      exact hs
    next j2 hs => exact absurd h (by simp)
  next j1 hk => exact absurd h (by simp)

/-- C1: the rule handed out by the registry lookup for StarType matches an
input exactly when the constant, bound-variable or statistic alternative
matches it; every node it produces is free of function/operator nodes, and
a function-form input accepted by the constructed function_expr sub-rule is
rejected by the public entry point. -/
theorem star_type_entry_alternatives :
    (∀ toks i, (starTypeEntryRule toks i).isOk = true ↔
      ((constant toks i).isOk = true ∨ (bound_variable toks i).isOk = true
        ∨ (statistic toks i).isOk = true))
    ∧ (∀ toks i v j, starTypeEntryRule toks i = .ok v j → hasOperation v = false)
    ∧ (function_expr [tk "OneOf", tk "(", tk "Blue", tk ")"] 0).isOk = true
    ∧ (starTypeEntryRule [tk "OneOf", tk "(", tk "Blue", tk ")"] 0).isOk = false := by
  refine ⟨?_, ?_, rfl, rfl⟩
  · intro toks i
    have hunf : starTypeEntryRule toks i = alt constant (alt bound_variable statistic) toks i := rfl
    rw [hunf, alt_isOk, alt_isOk]
    simp [Bool.or_eq_true]
  · intro toks i v j h
    have h2 : alt constant (alt bound_variable statistic) toks i = .ok v j := h
    rcases alt_ok_cases h2 with hc | hbs
    · obtain ⟨c, rfl⟩ := constant_ok_shape hc; rfl
    · rcases alt_ok_cases hbs with hb | hs
      · obtain ⟨n, rfl⟩ := bound_variable_ok_shape hb; rfl
      · obtain ⟨sub, rfl, hsub⟩ := statistic_ok_shape hs
        have hsub2 : alt constant bound_variable toks (i + 1) = .ok sub j := hsub
        rcases alt_ok_cases hsub2 with hc2 | hb2
        · obtain ⟨c, rfl⟩ := constant_ok_shape hc2; rfl
        · obtain ⟨n, rfl⟩ := bound_variable_ok_shape hb2; rfl

/-- Witness for C1 at a concrete accepted input. -/
theorem star_type_entry_alternatives_witness :
    hasOperation (ValueRef.constant StarType.blue) = false :=
  star_type_entry_alternatives.2.1 [tk "Blue"] 0 (ValueRef.constant StarType.blue) 1 rfl

/-- C2: the registry lookup is a lazily constructed singleton: a second
call returns exactly what the first call cached and leaves the registry
cell unchanged, and an empty cell is filled by constructing the rules
structure once. -/
theorem value_ref_parser_StarType_singleton :
    ∀ reg : Option StarTypeRules,
      value_ref_parser_StarType ((value_ref_parser_StarType reg).2) = value_ref_parser_StarType reg
      ∧ (value_ref_parser_StarType reg).2 = some (value_ref_parser_StarType reg).1
      ∧ value_ref_parser_StarType none = (mkStarTypeRules, some mkStarTypeRules) := by
  intro reg
  cases reg <;> exact ⟨rfl, rfl, rfl⟩

/-- C3: the aggregated sub-expression of a successful statistic parse is
always a constant or a qualifier-free bound variable; a bound-variable or
constant sub-expression parses, and a statistic-of-statistic input fails. -/
theorem statistic_sub_restricted :
    (∀ toks i v j, statistic toks i = .ok v j →
      ∃ sub, v = ValueRef.statistic "Mode" sub ∧
        ((∃ c, sub = ValueRef.constant c) ∨ (∃ n, sub = ValueRef.boundVariable n [])))
    ∧ statistic [tk "Mode", tk "StarType"] 0
        = .ok (.statistic "Mode" (.boundVariable "StarType" [])) 2
    ∧ statistic [tk "Mode", tk "Blue"] 0 = .ok (.statistic "Mode" (.constant .blue)) 2
    ∧ (statistic [tk "Mode", tk "Mode", tk "StarType"] 0).isOk = false := by
  refine ⟨?_, rfl, rfl, rfl⟩
  intro toks i v j h
  obtain ⟨sub, rfl, hsub⟩ := statistic_ok_shape h
  refine ⟨sub, rfl, ?_⟩
  have hsub2 : alt constant bound_variable toks (i + 1) = .ok sub j := hsub
  rcases alt_ok_cases hsub2 with hc | hb
  · obtain ⟨c, rfl⟩ := constant_ok_shape hc; exact Or.inl ⟨c, rfl⟩
  · obtain ⟨n, rfl⟩ := bound_variable_ok_shape hb; exact Or.inr ⟨n, rfl⟩

/-- Witness for C3 at a concrete statistic parse. -/
theorem statistic_sub_restricted_witness :
    ∃ sub, ValueRef.statistic "Mode" (ValueRef.boundVariable "StarType" [])
        = ValueRef.statistic "Mode" sub ∧
      ((∃ c, sub = ValueRef.constant c) ∨ (∃ n, sub = ValueRef.boundVariable n [])) :=
  statistic_sub_restricted.1 [tk "Mode", tk "StarType"] 0
    (ValueRef.statistic "Mode" (ValueRef.boundVariable "StarType" [])) 2 rfl

/-- C4: every valid literal spelling of a StarType enumerator parses at the
public entry rule to a Constant node holding that enumerator, consuming the
whole one-token input. -/
theorem constant_literal_parse :
    ∀ s v, (s, v) ∈ starTypeSpellings →
      starTypeEntryRule [tk s] 0 = .ok (.constant v) 1 := by
  intro s v h
  fin_cases h <;> rfl

/-- Witness for C4 at the Blue literal. -/
theorem constant_literal_parse_witness :
    starTypeEntryRule [tk "Blue"] 0 = .ok (.constant .blue) 1 :=
  constant_literal_parse "Blue" StarType.blue (by simp [starTypeSpellings])

/-- C5: the variable_name rule accepts exactly the three keywords StarType,
NextOlderStarType and NextYoungerStarType, and parsing a bare keyword with
the bound-variable rule yields a BoundVariable node with the matching name
and no qualifiers. -/
theorem variable_name_keywords :
    (∀ s : String, (variable_name [tk s] 0).isOk = true ↔
      (s = "StarType" ∨ s = "NextOlderStarType" ∨ s = "NextYoungerStarType"))
    ∧ (∀ s : String,
        s = "StarType" ∨ s = "NextOlderStarType" ∨ s = "NextYoungerStarType" →
        bound_variable [tk s] 0 = .ok (.boundVariable s []) 1) := by
  constructor
  · intro s
    by_cases h1 : s = "StarType"
    · subst h1; exact ⟨fun _ => Or.inl rfl, fun _ => rfl⟩
    by_cases h2 : s = "NextOlderStarType"
    · subst h2; exact ⟨fun _ => Or.inr (Or.inl rfl), fun _ => rfl⟩
    by_cases h3 : s = "NextYoungerStarType"
    · subst h3; exact ⟨fun _ => Or.inr (Or.inr rfl), fun _ => rfl⟩
    constructor
    · intro hok
      exfalso
      simp [variable_name, alt, kwMatch, tk, PResult.isOk, List.get?,
        h1, h2, h3] at hok
    · intro hor
      rcases hor with h | h | h
      · exact absurd h h1
      · exact absurd h h2
      · exact absurd h h3
  · intro s h
    rcases h with rfl | rfl | rfl <;> rfl

/-- Witness for C5 at a concrete keyword. -/
theorem variable_name_keywords_witness :
    bound_variable [tk "NextOlderStarType"] 0
      = .ok (.boundVariable "NextOlderStarType" []) 1 :=
  variable_name_keywords.2 "NextOlderStarType" (Or.inr (Or.inl rfl))

/-- C6: the primary_expr alternatives are tried in the declared order —
constant, then bound variable, then statistic — and the first successful
match decides the result; in particular a valid enum literal parses as a
Constant node. -/
theorem primary_expr_ordered :
    (∀ toks i, (constant toks i).isOk = true → primary_expr toks i = constant toks i)
    ∧ (∀ toks i, (constant toks i).isOk = false → (bound_variable toks i).isOk = true →
        primary_expr toks i = bound_variable toks i)
    ∧ (∀ toks i, (constant toks i).isOk = false → (bound_variable toks i).isOk = false →
        primary_expr toks i = statistic toks i)
    ∧ (∀ s v, (s, v) ∈ starTypeSpellings → primary_expr [tk s] 0 = .ok (.constant v) 1) := by
  refine ⟨?_, ?_, ?_, ?_⟩
  · intro toks i h
    unfold primary_expr
    exact alt_of_left_ok h
  · intro toks i hc hb
    unfold primary_expr
    rw [alt_of_left_fail hc]
    exact alt_of_left_ok hb
  · intro toks i hc hb
    unfold primary_expr
    rw [alt_of_left_fail hc]
    exact alt_of_left_fail hb
  · intro s v h
    fin_cases h <;> rfl

/-- Witness for C6 at a concrete enum literal. -/
theorem primary_expr_ordered_witness :
    primary_expr [tk "Blue"] 0 = constant [tk "Blue"] 0 :=
  primary_expr_ordered.1 [tk "Blue"] 0 rfl

/-- C7: empty and unrecognized inputs fail at the public entry rule, every
failure reports the position the parse started at (zero tokens consumed),
and re-parsing the same unmatched input yields the same failure. -/
theorem entry_fail_restores_position :
    starTypeEntryRule [] 0 = .fail 0
    ∧ starTypeEntryRule [tk "Foo"] 0 = .fail 0
    ∧ (∀ toks i j, starTypeEntryRule toks i = .fail j →
        j = i ∧ starTypeEntryRule toks i = .fail i) := by
  refine ⟨rfl, rfl, ?_⟩
  intro toks i j h
  have hp : alt constant (alt bound_variable statistic) toks i = .fail j := h
  have hs := alt_fail (alt_fail hp)
  have hj := statistic_fail_pos hs
  subst hj
  exact ⟨rfl, h⟩

/-- Witness for C7 at a concrete unrecognized input. -/
theorem entry_fail_restores_position_witness :
    0 = 0 ∧ starTypeEntryRule [tk "Foo"] 0 = .fail 0 :=
  entry_fail_restores_position.2.2 [tk "Foo"] 0 0 rfl

/-- C8 counterexample: the statistic_sub_value_ref rule member (and the
function_expr, operated_expr and expr members) receive no debug name from
the star_type_parser_rules constructor, refuting the claim that every
sub-rule is assigned one. -/
theorem rule_debug_names_missing :
    debugName RuleId.statistic_sub_value_ref = none
    ∧ debugName RuleId.function_expr = none
    ∧ debugName RuleId.operated_expr = none
    ∧ debugName RuleId.expr = none :=
  ⟨rfl, rfl, rfl, rfl⟩

/-- C8 (amended): exactly the five rule members variable_name, constant,
bound_variable, statistic and primary_expr are assigned a human-readable
debug name during construction; the other four members are not named. -/
theorem rule_debug_names_assigned :
    ∀ r : RuleId, (debugName r).isSome = true ↔
      (r = RuleId.variable_name ∨ r = RuleId.constant ∨ r = RuleId.bound_variable
        ∨ r = RuleId.statistic ∨ r = RuleId.primary_expr) := by
  intro r
  cases r <;> simp [debugName]

/-- C9: running the public entry rule mutates no shared rule state and
leaves the token stream unchanged — only the cursor moves — and the
outcome is a function of the rule, the tokens and the start position
alone. -/
theorem parse_is_pure_function :
    (∀ s : ParseCallState,
        (runEntry s).2.shared = s.shared ∧ (runEntry s).2.tokens = s.tokens)
    ∧ (∀ s1 s2 : ParseCallState, s1.shared.rules = s2.shared.rules →
        s1.tokens = s2.tokens → s1.cursor = s2.cursor →
        (runEntry s1).1 = (runEntry s2).1) := by
  constructor
  · intro s
    unfold runEntry
    cases s.shared.rules.expr s.tokens s.cursor <;> exact ⟨rfl, rfl⟩
  · intro s1 s2 h1 h2 h3
    unfold runEntry
    rw [h1, h2, h3]
    cases s2.shared.rules.expr s2.tokens s2.cursor <;> rfl

/-- Witness for C9: two calls whose states share the rule objects but
differ in the rest of the shared state produce the same outcome. -/
theorem parse_is_pure_function_witness :
    (runEntry ⟨⟨mkStarTypeRules, debugName⟩, [tk "Blue"], 0⟩).1
      = (runEntry ⟨⟨mkStarTypeRules, fun _ => none⟩, [tk "Blue"], 0⟩).1 :=
  parse_is_pure_function.2 ⟨⟨mkStarTypeRules, debugName⟩, [tk "Blue"], 0⟩
    ⟨⟨mkStarTypeRules, fun _ => none⟩, [tk "Blue"], 0⟩ rfl rfl rfl

/-- C10: inside statistic_sub_value_ref the constant alternative is tried
first and wins whenever it matches; the bound-variable alternative is
consulted only when the constant alternative fails; through the statistic
rule an enum-literal sub-expression therefore becomes a Constant node. -/
theorem statistic_sub_ordered :
    (∀ toks i, (constant toks i).isOk = true →
        statistic_sub_value_ref toks i = constant toks i)
    ∧ (∀ toks i, (constant toks i).isOk = false →
        statistic_sub_value_ref toks i = bound_variable toks i)
    ∧ (∀ s v, (s, v) ∈ starTypeSpellings →
        statistic [tk "Mode", tk s] 0 = .ok (.statistic "Mode" (.constant v)) 2) := by
  refine ⟨?_, ?_, ?_⟩
  · intro toks i h
    unfold statistic_sub_value_ref
    exact alt_of_left_ok h
  · intro toks i h
    unfold statistic_sub_value_ref
    exact alt_of_left_fail h
  · intro s v h
    fin_cases h <;> rfl

/-- Witness for C10 at a concrete enum literal. -/
theorem statistic_sub_ordered_witness :
    statistic_sub_value_ref [tk "Blue"] 0 = constant [tk "Blue"] 0 :=
  statistic_sub_ordered.1 [tk "Blue"] 0 rfl

end StarTypeVR
